import Mathlib

/-!
Verification of the procedural facial and gesture animator of the
suicide-prevention-bot front end.

The development shallowly embeds the animation logic of the repository:

* the viseme selector `pickExpressionFromWord`
  (`src/src/avatarcode copy.js`, lines 465-475);
* the viseme expression-drive decay of `VRMModel`
  (`src/src/avatarcode copy.js`, lines 653-687);
* the gesture scheduler, blink cycle, arm-raise calibration, idle sway
  and mouth shaping of `VRMScene`
  (`src/src/TalkingAvatar  copy 4.js` and `src/unnamed/part_000`).

State machines that the source updates imperatively (gesture scheduler,
blink cycle, expression drive, calibration flags) are embedded as explicit
state-passing functions over `ℚ` (JavaScript numbers carry no overflow in
the ranges used; exact rationals make every branch decidable).  Purely
numeric per-frame signals that the source computes with `Math.sin` and
`Math.cos` are embedded over `ℝ` with `Real.sin` and `Real.cos`, modelling
the exact-real reading of the floating-point source.
-/

namespace Avatar

/-- A generic all-elements predicate on lists, used to state trace
invariants without a leading quantifier. -/
def ListAll (p : α → Prop) : List α → Prop
  | [] => True
  | a :: l => p a ∧ ListAll p l

theorem listAll_cons {p : α → Prop} {a : α} {l : List α} :
    ListAll p (a :: l) ↔ p a ∧ ListAll p l := Iff.rfl

/-! ## Viseme selector

`pickExpressionFromWord` (`src/src/avatarcode copy.js` lines 465-475):
lower-case the word, strip everything outside `a`-`z`, then test the
vowel-class regexes in priority order O, E, I, U and fall back to `Aa`. -/

/-- The five VRM mouth-expression presets the selector can return. -/
inductive Viseme where
  | Aa | E | I | O | U
deriving DecidableEq, Repr

/-- The effect of `word.toLowerCase().replace(/[^a-z]/g, "")`: lower-case
every character and keep only the code points of `a`-`z`. -/
def stripLetters (word : String) : List Char :=
  (word.data.map Char.toLower).filter fun c => 97 ≤ c.toNat && c.toNat ≤ 122

/-- `pickExpressionFromWord` from `src/src/avatarcode copy.js` lines
465-475.  The regex alternates `ɔ ɒ ɛ ɪ ʊ` of the source are kept even
though the preceding strip makes them unreachable; `y` counts for the I
class and `w` for the U class exactly as in the source regexes. -/
def pickExpressionFromWord (word : String) : Viseme :=
  if word = "" then Viseme.Aa
  else
    let w := stripLetters word
    if w.any fun c => c == 'o' || c == 'ɔ' || c == 'ɒ' then Viseme.O
    else if w.any fun c => c == 'e' || c == 'ɛ' then Viseme.E
    else if w.any fun c => c == 'i' || c == 'ɪ' || c == 'y' then Viseme.I
    else if w.any fun c => c == 'u' || c == 'ʊ' || c == 'w' then Viseme.U
    else Viseme.Aa

/-- The classifier as the spec words it: on the lower-cased, stripped word,
return the first vowel class present in the fixed priority order O, E, I,
U, falling back to `Aa`.  The character set of each vowel class is the one
the source's regexes accept on stripped input: `o`; `e`; `i` or `y`;
`u` or `w`. -/
def classifySpec (word : String) : Viseme :=
  let w := stripLetters word
  if w.any fun c => c == 'o' then Viseme.O
  else if w.any fun c => c == 'e' then Viseme.E
  else if w.any fun c => c == 'i' || c == 'y' then Viseme.I
  else if w.any fun c => c == 'u' || c == 'w' then Viseme.U
  else Viseme.Aa

/-! ## Viseme expression drive

The `expressionDrive` ref of `VRMAvatarApp` and its decay inside
`VRMModel`'s `useFrame` (`src/src/avatarcode copy.js` lines 653-687,
pulse at lines 702-707). -/

/-- The `(shape-name, weight)` pair pulsed by word-boundary events. -/
structure ExpressionDrive where
  name : Option Viseme
  weight : ℚ
deriving DecidableEq, Repr

/-- The word-boundary handler (`src/src/avatarcode copy.js` lines
702-707): set the drive's name and pulse its weight to `1.0`. -/
def pulseDrive (v : Viseme) : ExpressionDrive :=
  { name := some v, weight := 1 }

/-- One frame of the drive decay (`src/src/avatarcode copy.js` lines
666-686): when a drive is set and positive, multiply the weight by `0.82`
and clear the drive to `(null, 0)` once the weight drops below `0.02`. -/
def stepDrive (d : ExpressionDrive) : ExpressionDrive :=
  match d.name with
  | none => d
  | some n =>
    if 0 < d.weight then
      let w := d.weight * (41 / 50)
      if w < 1 / 50 then { name := none, weight := 0 }
      else { name := some n, weight := w }
    else d

/-- The drive after `n` frames with no further pulses. -/
def iterDrive : ℕ → ExpressionDrive → ExpressionDrive
  | 0, d => d
  | n + 1, d => stepDrive (iterDrive n d)

/-! ## Theorems for the viseme selector -/

theorem listAny_congr {α : Type} {f g : α → Bool} :
    ∀ {l : List α}, (∀ a ∈ l, f a = g a) → l.any f = l.any g
  | [], _ => rfl
  | a :: l, h => by
    simp only [List.any_cons]
    rw [h a (List.mem_cons_self a l),
      listAny_congr fun b hb => h b (List.mem_cons_of_mem a hb)]

theorem stripLetters_le {word : String} {c : Char} (h : c ∈ stripLetters word) :
    c.toNat ≤ 122 := by
  have h2 := (List.mem_filter.mp h).2
  simp only [Bool.and_eq_true, decide_eq_true_eq] at h2
  exact h2.2

theorem beq_false_of_gt {c d : Char} (h : c.toNat ≤ 122) (hd : 122 < d.toNat) :
    (c == d) = false := by
  refine beq_eq_false_iff_ne.mpr fun hcd => ?_
  subst hcd
  exact absurd hd (by omega)

/-- C1.  The viseme classifier lower-cases the word, strips non-letters,
and returns the first vowel class present in priority order O, E, I, U
(character sets `o`; `e`; `i`,`y`; `u`,`w`), falling back to `Aa` when no
class matches or the input is empty; in particular it sends `"oh"` to O,
`"see"` to E, `""` to `Aa` and `"mmm"` to `Aa`. -/
theorem pickExpression_matches_spec :
    (∀ word, pickExpressionFromWord word = classifySpec word) ∧
    pickExpressionFromWord "oh" = Viseme.O ∧
    pickExpressionFromWord "see" = Viseme.E ∧
    pickExpressionFromWord "" = Viseme.Aa ∧
    pickExpressionFromWord "mmm" = Viseme.Aa := by
  refine ⟨fun word => ?_, by decide, by decide, by decide, by decide⟩
  unfold pickExpressionFromWord classifySpec
  by_cases hw : word = ""
  · subst hw; decide
  · have hO : ((stripLetters word).any fun c => c == 'o' || c == 'ɔ' || c == 'ɒ')
        = (stripLetters word).any fun c => c == 'o' := by
      refine listAny_congr fun c hc => ?_
      have h1 : (c == 'ɔ') = false := beq_false_of_gt (stripLetters_le hc) (by decide)
      have h2 : (c == 'ɒ') = false := beq_false_of_gt (stripLetters_le hc) (by decide)
      rw [h1, h2]
      simp
    have hE : ((stripLetters word).any fun c => c == 'e' || c == 'ɛ')
        = (stripLetters word).any fun c => c == 'e' := by
      refine listAny_congr fun c hc => ?_
      have h1 : (c == 'ɛ') = false := beq_false_of_gt (stripLetters_le hc) (by decide)
      rw [h1]
      simp
    have hI : ((stripLetters word).any fun c => c == 'i' || c == 'ɪ' || c == 'y')
        = (stripLetters word).any fun c => c == 'i' || c == 'y' := by
      refine listAny_congr fun c hc => ?_
      have h1 : (c == 'ɪ') = false := beq_false_of_gt (stripLetters_le hc) (by decide)
      rw [h1]
      simp
    have hU : ((stripLetters word).any fun c => c == 'u' || c == 'ʊ' || c == 'w')
        = (stripLetters word).any fun c => c == 'u' || c == 'w' := by
      refine listAny_congr fun c hc => ?_
      have h1 : (c == 'ʊ') = false := beq_false_of_gt (stripLetters_le hc) (by decide)
      rw [h1]
      simp
    simp only [hw, if_false, hO, hE, hI, hU]

/-! ## Theorems for the expression-drive decay -/

/-- C2.  After a pulse to weight `1.0`, the drive weight after `n`
decay frames is exactly `0.82 ^ n` for as long as that value has not
fallen below `0.02`, and the first frame on which the decayed weight
falls below `0.02` clears the drive to the inactive state
`(name = null, weight = 0)`, where it stays. -/
theorem driveDecay_geometric (v : Viseme) (n : ℕ) :
    iterDrive n (pulseDrive v) =
      if 1 / 50 ≤ (41 / 50 : ℚ) ^ n then
        { name := some v, weight := (41 / 50) ^ n }
      else { name := none, weight := 0 } := by
  induction n with
  | zero => norm_num [iterDrive, pulseDrive]
  | succ n ih =>
    rw [iterDrive, ih]
    by_cases h : (1 : ℚ) / 50 ≤ (41 / 50 : ℚ) ^ n
    · rw [if_pos h]
      have hpos : (0 : ℚ) < (41 / 50) ^ n := by positivity
      by_cases h2 : (41 / 50 : ℚ) ^ n * (41 / 50) < 1 / 50
      · have hr : ¬ (1 : ℚ) / 50 ≤ (41 / 50 : ℚ) ^ (n + 1) := by
          rw [pow_succ]; linarith
        rw [if_neg hr]
        simp only [stepDrive]
        rw [if_pos hpos, if_pos h2]
      · have hr : (1 : ℚ) / 50 ≤ (41 / 50 : ℚ) ^ (n + 1) := by
          rw [pow_succ]; linarith
        rw [if_pos hr]
        simp only [stepDrive]
        rw [if_pos hpos, if_neg h2, pow_succ]
    · rw [if_neg h]
      have hmono : (41 / 50 : ℚ) ^ (n + 1) ≤ (41 / 50 : ℚ) ^ n := by
        rw [pow_succ]
        nlinarith [pow_nonneg (by norm_num : (0 : ℚ) ≤ 41 / 50) n]
      have hr : ¬ (1 : ℚ) / 50 ≤ (41 / 50 : ℚ) ^ (n + 1) := by
        push_neg at h ⊢; linarith
      rw [if_neg hr]
      rfl

/-! ## Gesture scheduler

The wave-gesture state machine of `VRMScene` (`src/unnamed/part_000`
lines 603 and 676-708): while `gestures && speaking` holds, a countdown
is decremented each frame and triggers a gesture when it reaches zero
with none active; otherwise any active gesture is cancelled and the
countdown is reset to `2.5`. -/

/-- The side a wave gesture animates. -/
inductive Side where
  | left | right
deriving DecidableEq, Repr

/-- The `gestureRef` record: `{ active, side, t, dur, next }`. -/
structure GestureState where
  active : Bool
  side : Side
  t : ℚ
  dur : ℚ
  next : ℚ
deriving DecidableEq, Repr

/-- The three `Math.random()` draws a gesture trigger consumes: the side
coin, the duration draw and the next-countdown draw, each in `[0, 1)`. -/
structure GestureRand where
  side : ℚ
  dur : ℚ
  next : ℚ
deriving DecidableEq, Repr

/-- The initial `gestureRef` value
(`src/unnamed/part_000` line 603). -/
def gestureInit : GestureState :=
  { active := false, side := Side.right, t := 0, dur := 6 / 5, next := 5 / 2 }

/-- One frame of the gesture scheduler (`src/unnamed/part_000` lines
676-708), with `eligible = gestures && speaking`.  The pose writes of the
overlay are modelled separately (`jointTarget`, `gestureOverlay`). -/
def stepGesture (eligible : Bool) (delta : ℚ) (r : GestureRand)
    (g : GestureState) : GestureState :=
  if eligible = false then
    { g with active := false, next := 5 / 2 }
  else
    let g1 : GestureState := { g with next := g.next - delta * 1 }
    let g2 : GestureState :=
      if g1.active = false ∧ g1.next ≤ 0 then
        { active := true
          side := if r.side < 1 / 2 then Side.left else Side.right
          t := 0
          dur := 11 / 10 + r.dur * (2 / 5)
          next := 3 + r.next * 2 }
      else g1
    if g2.active = true then
      let g3 : GestureState := { g2 with t := g2.t + delta }
      if g3.dur ≤ g3.t then { g3 with active := false } else g3
    else g2

/-- The per-frame inputs the gesture scheduler reads: the `speaking` and
`gestures` flags, the frame delta and the random draws. -/
structure GestureInput where
  speaking : Bool
  gestures : Bool
  delta : ℚ
  rand : GestureRand
deriving DecidableEq, Repr

/-- The sequence of gesture states after each frame of a run. -/
def gestureTrace (g : GestureState) : List GestureInput → List GestureState
  | [] => []
  | i :: is =>
    let g1 := stepGesture (i.gestures && i.speaking) i.delta i.rand g
    g1 :: gestureTrace g1 is

theorem listAll_imp {p q : α → Prop} (h : ∀ a, p a → q a) :
    ∀ {l : List α}, ListAll p l → ListAll q l
  | [], _ => trivial
  | _ :: _, hl => ⟨h _ hl.1, listAll_imp h hl.2⟩

/-- C3.  Over any sequence of frames on which `speaking && gestures` is
false, every post-frame state has the gesture inactive and the countdown
pinned at the reset value `2.5`: an ineligible tick cancels any active
gesture and resets the countdown, so no gesture ever activates. -/
theorem gesture_ineligible_never_active (g : GestureState)
    (is : List GestureInput)
    (h : ∀ i ∈ is, (i.speaking && i.gestures) = false) :
    ListAll (fun s => s.active = false ∧ s.next = 5 / 2) (gestureTrace g is) := by
  induction is generalizing g with
  | nil => trivial
  | cons i is ih =>
    have hi : (i.gestures && i.speaking) = false := by
      have := h i (List.mem_cons_self i is)
      cases hg : i.gestures <;> cases hs : i.speaking <;> simp_all
    simp only [gestureTrace, listAll_cons]
    exact ⟨by simp [stepGesture, hi],
      ih _ fun j hj => h j (List.mem_cons_of_mem i hj)⟩

/-- A two-frame ineligible run from an active state: the first frame has
`speaking` without `gestures`, the second `gestures` without `speaking`;
the gesture is cancelled and the countdown pinned at `2.5` on both. -/
theorem gesture_ineligible_never_active_witness :
    ListAll (fun s => s.active = false ∧ s.next = 5 / 2)
      (gestureTrace
        { active := true, side := Side.left, t := 1 / 2, dur := 6 / 5, next := 0 }
        [{ speaking := true, gestures := false, delta := 1 / 60, rand := ⟨0, 0, 0⟩ },
         { speaking := false, gestures := true, delta := 1 / 60,
           rand := ⟨1 / 2, 1 / 2, 1 / 2⟩ }]) :=
  gesture_ineligible_never_active _ _ (by decide)

/-! ## Gesture overlay and the gesture invariant -/

/-- `clamp01` from the source: clamp to `[0, 1]`. -/
noncomputable def clamp01 (x : ℝ) : ℝ := max 0 (min 1 x)

/-- `easeInOut` (`src/unnamed/part_000` line 609):
`0.5 - 0.5 * cos(π * clamp01 x)`. -/
noncomputable def easeInOut (x : ℝ) : ℝ :=
  0.5 - 0.5 * Real.cos (Real.pi * clamp01 x)

/-- The eased lift the overlay applies while a gesture is active
(`src/unnamed/part_000` lines 690-705): the chosen side together with
`k = easeInOut(g.t / g.dur)`; `none` when no gesture is active. -/
noncomputable def gestureOverlay (g : GestureState) : Option (Side × ℝ) :=
  if g.active = true then
    some (g.side, easeInOut ((g.t : ℝ) / (g.dur : ℝ)))
  else none

/-- The strengthened induction invariant: an active gesture has
`0 < t < dur` at every frame boundary. -/
def gestureInv (g : GestureState) : Prop :=
  g.active = true → 0 < g.t ∧ g.t < g.dur

/-- What C4 claims of a reachable state: the active flag is false whenever
`t = 0`, false again whenever `t ≥ dur`, and an active state's overlay is
the eased profile `0.5 - 0.5 * cos(π * progress)` with
`progress = t / dur` clamped to `[0, 1]`. -/
def gestureOK (s : GestureState) : Prop :=
  (s.t = 0 → s.active = false) ∧
  (s.dur ≤ s.t → s.active = false) ∧
  (s.active = true →
    gestureOverlay s =
      some (s.side,
        0.5 - 0.5 * Real.cos (Real.pi * max 0 (min 1 ((s.t : ℝ) / (s.dur : ℝ))))))

theorem stepGesture_inv {e : Bool} {delta : ℚ} {r : GestureRand}
    {g : GestureState} (hd : 0 < delta) (hg : gestureInv g) :
    gestureInv (stepGesture e delta r g) := by
  intro hact
  cases e with
  | false => simp [stepGesture] at hact
  | true =>
    simp only [stepGesture, reduceIte] at hact ⊢
    split_ifs at hact ⊢ with h1 h2 h3 h4 <;> simp_all <;>
      linarith [(hg (by assumption)).1]

theorem gestureInv_ok {s : GestureState} (h : gestureInv s) : gestureOK s := by
  refine ⟨?_, ?_, fun ha => ?_⟩
  · intro ht
    cases ha : s.active with
    | false => rfl
    | true => have := h ha; rw [ht] at this; exact absurd this.1 (by norm_num)
  · intro ht
    cases ha : s.active with
    | false => rfl
    | true => have := h ha; exact absurd ht (by push_neg; exact this.2)
  · simp [gestureOverlay, ha, easeInOut, clamp01]

/-- C4.  Every gesture state reachable from the initial scheduler state
through positive-delta frames satisfies `gestureOK`: the active flag is
false at `t = 0`, false again once `t ≥ dur`, and while active the overlay
carries the eased lift `0.5 - 0.5 * cos(π * progress)` with
`progress = t / dur` clamped to `[0, 1]`. -/
theorem gestureReachable_ok (is : List GestureInput)
    (h : ∀ i ∈ is, 0 < i.delta) :
    ListAll gestureOK (gestureTrace gestureInit is) := by
  have H : ∀ (g : GestureState), gestureInv g →
      ∀ (js : List GestureInput), (∀ i ∈ js, 0 < i.delta) →
      ListAll gestureInv (gestureTrace g js) := by
    intro g hg js
    induction js generalizing g with
    | nil => intro _; trivial
    | cons i is ih =>
      intro hjs
      have h1 : gestureInv (stepGesture (i.gestures && i.speaking) i.delta i.rand g) :=
        stepGesture_inv (hjs i (List.mem_cons_self i is)) hg
      exact ⟨h1, ih _ h1 fun j hj => hjs j (List.mem_cons_of_mem i hj)⟩
  exact listAll_imp (fun s => gestureInv_ok)
    (H gestureInit (by intro hact; simp [gestureInit] at hact) is h)

/-- A one-frame eligible run from the initial state: the countdown
decrements without triggering, and the resulting state satisfies all three
parts of the C4 property. -/
theorem gestureReachable_ok_witness :
    ListAll gestureOK
      (gestureTrace gestureInit
        [{ speaking := true, gestures := true, delta := 1, rand := ⟨0, 0, 0⟩ }]) :=
  gestureReachable_ok _ (by decide)

/-! ## Blink cycle

The `blinkRef` three-phase state machine of `VRMScene`
(`src/src/TalkingAvatar  copy 4.js` lines 65 and 187-192): wait a
randomized interval, close the lid at `12/s` capping at `1`, reopen at
`10/s`, and reset to exactly `0` with a fresh randomized wait. -/

/-- The `blinkRef` record `{ t, nextBlink, phase, v }`. -/
structure BlinkState where
  t : ℚ
  nextBlink : ℚ
  phase : ℕ
  v : ℚ
deriving DecidableEq, Repr

/-- The initial `blinkRef` value
(`src/src/TalkingAvatar  copy 4.js` line 65): phase `0`, weight `0`, and
a first wait of `1.5 + r0 * 2.0` for a `Math.random()` draw `r0`. -/
def blinkInit (r0 : ℚ) : BlinkState :=
  { t := 0, nextBlink := 3 / 2 + r0 * 2, phase := 0, v := 0 }

/-- One frame of the blink machine
(`src/src/TalkingAvatar  copy 4.js` lines 188-191); `r` is the
`Math.random()` draw consumed when a cycle completes. -/
def stepBlink (delta r : ℚ) (B : BlinkState) : BlinkState :=
  let B1 : BlinkState := { B with t := B.t + delta }
  let B2 : BlinkState :=
    if B1.phase = 0 ∧ B1.nextBlink < B1.t then { B1 with phase := 1 } else B1
  if B2.phase = 1 then
    let v := B2.v + delta * 12
    if 1 ≤ v then { B2 with v := 1, phase := 2 } else { B2 with v := v }
  else if B2.phase = 2 then
    let v := B2.v - delta * 10
    if v ≤ 0 then
      { B2 with v := 0, phase := 0, t := 0, nextBlink := 3 / 2 + r * 2 }
    else { B2 with v := v }
  else B2

/-- The per-frame inputs of the blink machine: the frame delta and the
`Math.random()` draw. -/
structure BlinkInput where
  delta : ℚ
  rand : ℚ
deriving DecidableEq, Repr

/-- The sequence of blink states after each frame of a run. -/
def blinkTrace (B : BlinkState) : List BlinkInput → List BlinkState
  | [] => []
  | i :: is =>
    let B1 := stepBlink i.delta i.rand B
    B1 :: blinkTrace B1 is

/-- The C5 state property: the eyelid weight lies in `[0, 1]`, the idle
phase always holds weight exactly `0`, and the pending wait lies in the
randomized interval `[1.5, 3.5]`. -/
def blinkOK (B : BlinkState) : Prop :=
  0 ≤ B.v ∧ B.v ≤ 1 ∧ (B.phase = 0 → B.v = 0) ∧
  3 / 2 ≤ B.nextBlink ∧ B.nextBlink ≤ 7 / 2

theorem stepBlink_ok {delta r : ℚ} {B : BlinkState} (hd : 0 ≤ delta)
    (hr0 : 0 ≤ r) (hr1 : r ≤ 1) (hB : blinkOK B) :
    blinkOK (stepBlink delta r B) := by
  obtain ⟨h0, h1, h01, hn1, hn2⟩ := hB
  simp only [stepBlink, blinkOK]
  split_ifs <;>
    refine ⟨?_, ?_, ?_, ?_, ?_⟩ <;> simp_all <;> linarith

/-- C5.  From the initial blink state, over any frames with nonnegative
deltas and random draws in `[0, 1]`, every post-frame state satisfies
`blinkOK` (weight in `[0, 1]`, idle weight exactly `0`, wait in
`[1.5, 3.5]`); moreover one closing frame that reaches `1` caps the
weight at exactly `1`, and one opening frame that reaches `0` resets the
weight to exactly `0`, the timer to `0` and the wait to the freshly
randomized `1.5 + r * 2`. -/
theorem blinkWeight_ok (r0 : ℚ) (is : List BlinkInput)
    (hr : 0 ≤ r0 ∧ r0 ≤ 1)
    (h : ∀ i ∈ is, 0 ≤ i.delta ∧ 0 ≤ i.rand ∧ i.rand ≤ 1) :
    ListAll blinkOK (blinkTrace (blinkInit r0) is) ∧
    (∀ (B : BlinkState) (d r : ℚ), B.phase = 1 → 1 ≤ B.v + d * 12 →
      (stepBlink d r B).v = 1 ∧ (stepBlink d r B).phase = 2) ∧
    (∀ (B : BlinkState) (d r : ℚ), B.phase = 2 → B.v - d * 10 ≤ 0 →
      (stepBlink d r B).v = 0 ∧ (stepBlink d r B).phase = 0 ∧
      (stepBlink d r B).t = 0 ∧ (stepBlink d r B).nextBlink = 3 / 2 + r * 2) := by
  refine ⟨?_, ?_, ?_⟩
  · have hinit : blinkOK (blinkInit r0) := by
      simp only [blinkOK, blinkInit]
      refine ⟨by norm_num, by norm_num, by norm_num, ?_, ?_⟩ <;>
        linarith [hr.1, hr.2]
    have H : ∀ (B : BlinkState), blinkOK B →
        ∀ (js : List BlinkInput),
          (∀ i ∈ js, 0 ≤ i.delta ∧ 0 ≤ i.rand ∧ i.rand ≤ 1) →
          ListAll blinkOK (blinkTrace B js) := by
      intro B hB js
      induction js generalizing B with
      | nil => intro _; trivial
      | cons i is ih =>
        intro hjs
        obtain ⟨hd, hra, hrb⟩ := hjs i (List.mem_cons_self i is)
        have h1 := stepBlink_ok hd hra hrb hB
        exact ⟨h1, ih _ h1 fun j hj => hjs j (List.mem_cons_of_mem i hj)⟩
    exact H _ hinit is h
  · intro B d r hp hv
    obtain ⟨t, nb, ph, v⟩ := B
    simp only at hp
    subst hp
    simp [stepBlink, hv]
  · intro B d r hp hv
    obtain ⟨t, nb, ph, v⟩ := B
    simp only at hp
    subst hp
    simp [stepBlink, hv]

/-- A two-frame blink run: a small closing-side frame followed by a large
frame, all weights staying inside `[0, 1]`. -/
theorem blinkWeight_ok_witness :
    ListAll blinkOK
      (blinkTrace (blinkInit 0) [⟨1, 1⟩, ⟨2, 0⟩]) :=
  (blinkWeight_ok 0 _ (by norm_num) (by decide)).1

/-! ## Idle sway

The per-frame sinusoidal sway offsets of `VRMScene`
(`src/src/TalkingAvatar  copy 4.js` lines 109-112). -/

/-- `spine.rotation.x` idle sway. -/
noncomputable def spineSwayX (t : ℝ) : ℝ := Real.sin (t * 1.2) * 0.01

/-- `spine.rotation.y` idle sway. -/
noncomputable def spineSwayY (t : ℝ) : ℝ := Real.sin (t * 0.7) * 0.01

/-- `chest.rotation.x` idle sway. -/
noncomputable def chestSwayX (t : ℝ) : ℝ := Real.sin (t * 1.0) * 0.015

/-- `chest.rotation.y` idle sway. -/
noncomputable def chestSwayY (t : ℝ) : ℝ := Real.sin (t * 0.5) * 0.012

/-- `neck.rotation.x` idle sway. -/
noncomputable def neckSwayX (t : ℝ) : ℝ := Real.sin (t * 0.9) * 0.02

/-- `neck.rotation.y` idle sway. -/
noncomputable def neckSwayY (t : ℝ) : ℝ := Real.sin (t * 0.6 + 0.5) * 0.02

/-- `head.rotation.x` idle sway. -/
noncomputable def headSwayX (t : ℝ) : ℝ := Real.sin (t * 1.1 + 0.3) * 0.018

/-- `head.rotation.y` idle sway. -/
noncomputable def headSwayY (t : ℝ) : ℝ := Real.sin (t * 0.8) * 0.018

theorem sin_mul_amp_bound (x a : ℝ) (ha : 0 ≤ a) : |Real.sin x * a| ≤ a := by
  rw [abs_mul, abs_of_nonneg ha]
  exact mul_le_of_le_one_left ha (Real.abs_sin_le_one x)

/-- C6.  For every elapsed time `t`, each idle-sway rotation output is
bounded by its fixed amplitude constant — no unbounded accumulation; in
particular the head `rotation.x` and `rotation.y` always lie in
`[-0.018, 0.018]` radians. -/
theorem idleSway_bounded (t : ℝ) :
    |spineSwayX t| ≤ 0.01 ∧ |spineSwayY t| ≤ 0.01 ∧
    |chestSwayX t| ≤ 0.015 ∧ |chestSwayY t| ≤ 0.012 ∧
    |neckSwayX t| ≤ 0.02 ∧ |neckSwayY t| ≤ 0.02 ∧
    |headSwayX t| ≤ 0.018 ∧ |headSwayY t| ≤ 0.018 ∧
    -0.018 ≤ headSwayX t ∧ headSwayX t ≤ 0.018 ∧
    -0.018 ≤ headSwayY t ∧ headSwayY t ≤ 0.018 := by
  have hx := sin_mul_amp_bound (t * 1.1 + 0.3) 0.018 (by norm_num)
  have hy := sin_mul_amp_bound (t * 0.8) 0.018 (by norm_num)
  have hx2 := abs_le.mp hx
  have hy2 := abs_le.mp hy
  exact ⟨sin_mul_amp_bound _ _ (by norm_num), sin_mul_amp_bound _ _ (by norm_num),
    sin_mul_amp_bound _ _ (by norm_num), sin_mul_amp_bound _ _ (by norm_num),
    sin_mul_amp_bound _ _ (by norm_num), sin_mul_amp_bound _ _ (by norm_num),
    hx, hy, hx2.1, hx2.2, hy2.1, hy2.2⟩

/-! ## Mouth shaping

The `aa` mouth value of `VRMScene` (`src/src/TalkingAvatar  copy 4.js`
lines 175-185; identically `src/src/TalkingAvatar  copy.js` lines
55-69). -/

/-- The mouth-openness value applied to the `aa` expression each frame:
a low-amplitude idle sinusoid, replaced while speaking by a clamped
weighted sum of three sinusoids. -/
noncomputable def mouthValue (speaking : Bool) (t : ℝ) : ℝ :=
  let idle := 0.02 + max 0 (Real.sin (t * 1.2)) * 0.01
  if speaking then
    let s1 := (Real.sin (t * 8.0) + 1) * 0.5
    let s2 := (Real.sin (t * 3.7 + 1.3) + 1) * 0.5
    let s3 := (Real.sin (t * 1.9 + 0.7) + 1) * 0.5
    min 1 (max 0 (0.05 + (0.65 * s1 + 0.25 * s2 + 0.10 * s3) * 0.8))
  else idle

/-- C9.  While speaking the mouth value is
`0.05 + (0.65*s1 + 0.25*s2 + 0.10*s3) * 0.8` clamped to `[0, 1]`, where
`s1`, `s2`, `s3` are the normalized sinusoids at `8.0`, `3.7` and `1.9`
rad/s with the fixed phase offsets `0`, `1.3` and `0.7`; while idle it is
the low-amplitude sinusoid `0.02 + max 0 (sin (1.2*t)) * 0.01`. -/
theorem mouthValue_formula (t : ℝ) :
    mouthValue true t =
      min 1 (max 0 (0.05 +
        (0.65 * ((Real.sin (8.0 * t) + 1) * 0.5) +
         0.25 * ((Real.sin (3.7 * t + 1.3) + 1) * 0.5) +
         0.10 * ((Real.sin (1.9 * t + 0.7) + 1) * 0.5)) * 0.8)) ∧
    mouthValue false t = 0.02 + max 0 (Real.sin (1.2 * t)) * 0.01 := by
  refine ⟨?_, ?_⟩ <;> simp [mouthValue, mul_comm t]

/-! ## Arm-raise calibration

`measureRaiseSign` and the one-time calibration block of `VRMScene`
(`src/src/TalkingAvatar  copy 4.js` lines 88-104, identically
`src/unnamed/part_000` lines 623-639).  The forward-kinematics
evaluation — world hand height as a function of the upper-arm `z`
rotation, everything else fixed by the bind pose — is abstracted as a
function `handY`, assumed exact as the spec does. -/

/-- `measureRaiseSign`: save the upper-arm `z` rotation, perturb it by
`+0.18` and `-0.18` radians, read the hand height after each perturbation,
write the saved rotation back, and return the comparison sign together
with the final rotation. -/
def measureRaiseSign (handY : ℚ → ℚ) (rot0 : ℚ) : ℤ × ℚ :=
  let saved := rot0
  let rot1 := saved + 9 / 50
  let hy1 := handY rot1
  let rot2 := saved - 9 / 50
  let hy2 := handY rot2
  let rotEnd := saved
  (if hy2 < hy1 then 1 else -1, rotEnd)

/-- The `dirRef` record `{ l, r, done }` caching the per-arm raise signs. -/
structure CalibState where
  l : ℤ
  r : ℤ
  done : Bool
deriving DecidableEq, Repr

/-- The two upper-arm `z` rotations the calibration touches. -/
structure ArmPose where
  lRotZ : ℚ
  rRotZ : ℚ
deriving DecidableEq, Repr

/-- The one-time calibration block (`src/src/TalkingAvatar  copy 4.js`
lines 89-104): when not yet done and the arm bones are present, measure
both sides' raise signs and set the `done` flag; otherwise leave
everything unchanged. -/
def calibrateFrame (handYL handYR : ℚ → ℚ) (bonesPresent : Bool)
    (c : CalibState) (a : ArmPose) : CalibState × ArmPose :=
  if c.done = false ∧ bonesPresent = true then
    let ml := measureRaiseSign handYL a.lRotZ
    let mr := measureRaiseSign handYR a.rRotZ
    ({ l := ml.1, r := mr.1, done := true }, { lRotZ := ml.2, rRotZ := mr.2 })
  else (c, a)

/-- C7.  Calibration is deterministic and idempotent: running the
measurement again after a first run (which restored the rotation) yields
the same sign; the sign is `+1` exactly when the `+0.18` perturbation
yields the strictly greater hand height, and is always `±1`; and the
calibration runs exactly once — a set `done` flag makes the frame a no-op,
and a first run with bones present sets `done`. -/
theorem calibration_deterministic (handY : ℚ → ℚ) (rot : ℚ) :
    (measureRaiseSign handY ((measureRaiseSign handY rot).2)).1
      = (measureRaiseSign handY rot).1 ∧
    ((measureRaiseSign handY rot).1 = 1 ↔
      handY (rot - 9 / 50) < handY (rot + 9 / 50)) ∧
    ((measureRaiseSign handY rot).1 = 1 ∨ (measureRaiseSign handY rot).1 = -1) ∧
    (∀ (hl hr : ℚ → ℚ) (p : Bool) (c : CalibState) (a : ArmPose),
      c.done = true → calibrateFrame hl hr p c a = (c, a)) ∧
    (∀ (hl hr : ℚ → ℚ) (c : CalibState) (a : ArmPose),
      c.done = false → ((calibrateFrame hl hr true c a).1).done = true) := by
  refine ⟨rfl, ?_, ?_, ?_, ?_⟩
  · by_cases h : handY (rot - 9 / 50) < handY (rot + 9 / 50) <;>
      simp [measureRaiseSign, h]
  · by_cases h : handY (rot - 9 / 50) < handY (rot + 9 / 50) <;>
      simp [measureRaiseSign, h]
  · intro hl hr p c a hdone
    simp [calibrateFrame, hdone]
  · intro hl hr c a hdone
    simp [calibrateFrame, hdone]

/-- C10.  The measurement is restore-exact: `measureRaiseSign` writes the
saved `z` rotation back, so a calibration frame leaves every joint
rotation exactly as it found it — its only lasting effect is the cached
sign pair and `done` flag. -/
theorem calibration_restores (handY : ℚ → ℚ) (rot : ℚ) :
    (measureRaiseSign handY rot).2 = rot ∧
    (∀ (hl hr : ℚ → ℚ) (p : Bool) (c : CalibState) (a : ArmPose),
      (calibrateFrame hl hr p c a).2 = a) := by
  refine ⟨rfl, ?_⟩
  intro hl hr p c a
  by_cases h : c.done = false ∧ p = true <;> simp [calibrateFrame, measureRaiseSign, h]

/-! ## Per-frame pose update with optional joints

The joint writes of `VRMScene`'s `useFrame`
(`src/src/TalkingAvatar  copy 4.js` lines 108-172): every write is
guarded by the presence of its joint reference, so a missing bone is
silently skipped.  The update is a total function — no branch can fail —
and each joint's output depends only on that joint's own presence. -/

/-- The named joints the per-frame update writes. -/
inductive Joint where
  | head | neck | chest | spine
  | lUpperArm | rUpperArm | lLowerArm | rLowerArm
  | lHand | rHand | lShoulder | rShoulder
deriving DecidableEq, Repr

/-- A three-axis rotation in radians. -/
structure Rot3 where
  x : ℝ
  y : ℝ
  z : ℝ

/-- The pose writes of one frame.  `present` says which joint references
exist; `prev` is each joint node's rotation coming into the frame (axes
the frame does not write keep it); `raiseL`, `raiseR` are the calibrated
raise signs; `ov` is the gesture overlay `(side, easedLift)` produced by
the gesture block when a gesture is running this frame, `none` otherwise.
An absent joint keeps `prev` unchanged. -/
noncomputable def poseFrame (present : Joint → Bool) (prev : Joint → Rot3)
    (t : ℝ) (raiseL raiseR : ℤ) (ov : Option (Side × ℝ)) : Joint → Rot3 :=
  fun j =>
    if present j = false then prev j
    else
      match j with
      | Joint.spine => { x := spineSwayX t, y := spineSwayY t, z := (prev Joint.spine).z }
      | Joint.chest => { x := chestSwayX t, y := chestSwayY t, z := (prev Joint.chest).z }
      | Joint.neck => { x := neckSwayX t, y := neckSwayY t, z := (prev Joint.neck).z }
      | Joint.head => { x := headSwayX t, y := headSwayY t, z := (prev Joint.head).z }
      | Joint.lUpperArm =>
        match ov with
        | some (Side.left, k) =>
          { x := Real.sin (t * 0.55) * 0.02
            y := -0.18 * k
            z := -(raiseL : ℝ) * 0.9 + (raiseL : ℝ) * (0.45 * k) }
        | _ =>
          { x := Real.sin (t * 0.55) * 0.02
            y := 0
            z := -(raiseL : ℝ) * 0.9 + Real.sin (t * 0.7) * 0.025 }
      | Joint.rUpperArm =>
        match ov with
        | some (Side.right, k) =>
          { x := Real.sin (t * 0.6) * 0.02
            y := 0.18 * k
            z := -(raiseR : ℝ) * 0.9 + (raiseR : ℝ) * (0.45 * k) }
        | _ =>
          { x := Real.sin (t * 0.6) * 0.02
            y := 0
            z := -(raiseR : ℝ) * 0.9 + Real.sin (t * 0.75 + 0.4) * 0.025 }
      | Joint.lLowerArm =>
        { x := match ov with
               | some (Side.left, k) => 0.35 + 0.45 * k
               | _ => 0.35 + Real.sin (t * 0.85) * 0.03
          y := (prev Joint.lLowerArm).y
          z := (prev Joint.lLowerArm).z }
      | Joint.rLowerArm =>
        { x := match ov with
               | some (Side.right, k) => 0.35 + 0.45 * k
               | _ => 0.35 + Real.sin (t * 0.9 + 0.25) * 0.03
          y := (prev Joint.rLowerArm).y
          z := (prev Joint.rLowerArm).z }
      | Joint.lHand =>
        match ov with
        | some (Side.left, k) =>
          { x := 0.25 * k
            y := 0.55 * Real.sin (t * 10) * k
            z := (prev Joint.lHand).z }
        | _ =>
          { x := Real.sin (t * 0.5) * 0.04
            y := Real.sin (t * 1.0) * 0.08
            z := (prev Joint.lHand).z }
      | Joint.rHand =>
        match ov with
        | some (Side.right, k) =>
          { x := 0.25 * k
            y := -(0.55 * Real.sin (t * 10) * k)
            z := (prev Joint.rHand).z }
        | _ =>
          { x := Real.sin (t * 0.55 + 0.2) * 0.04
            y := Real.sin (t * 1.05 + 0.35) * 0.08
            z := (prev Joint.rHand).z }
      | Joint.lShoulder =>
        { x := (prev Joint.lShoulder).x
          y := (prev Joint.lShoulder).y
          z := 0.035 * (if raiseL = 1 then 1 else -1) + Real.sin (t * 0.7) * 0.015 }
      | Joint.rShoulder =>
        { x := (prev Joint.rShoulder).x
          y := (prev Joint.rShoulder).y
          z := 0.035 * (if raiseR = -1 then 1 else -1) + Real.sin (t * 0.75 + 0.45) * 0.015 }

/-- Clamp to `[0, 1]` over the rationals, for the blink weight the frame
stores into the expression manager. -/
def clamp01Q (x : ℚ) : ℚ := max 0 (min 1 x)

/-- The expression-manager part of the frame
(`src/src/TalkingAvatar  copy 4.js` lines 175-194): when the expression
manager is present, compute the mouth value, advance the blink machine and
emit `(mouth, clamped blink weight)`; when it is absent the whole block —
including the blink-state update — is silently skipped. -/
noncomputable def emFrame (emPresent : Bool) (speaking : Bool) (t : ℝ)
    (delta r : ℚ) (B : BlinkState) : Option (ℝ × ℚ) × BlinkState :=
  if emPresent then
    let B1 := stepBlink delta r B
    (some (mouthValue speaking t, clamp01Q B1.v), B1)
  else (none, B)

/-- C8.  The per-frame pose update is total for every subset of present
joint references: an absent joint's write is skipped and its rotation is
left exactly as it was (its contribution is absent from the output pose);
a present joint receives the same value it would receive with every joint
present; an absent expression manager skips the mouth-and-blink block
(including the blink-state update) while a present one advances it. -/
theorem poseFrame_presence (present : Joint → Bool) (prev : Joint → Rot3)
    (t : ℝ) (raiseL raiseR : ℤ) (ov : Option (Side × ℝ)) (j : Joint)
    (speaking : Bool) (d r : ℚ) (B : BlinkState) :
    (present j = false → poseFrame present prev t raiseL raiseR ov j = prev j) ∧
    (present j = true →
      poseFrame present prev t raiseL raiseR ov j
        = poseFrame (fun _ => true) prev t raiseL raiseR ov j) ∧
    emFrame false speaking t d r B = (none, B) ∧
    (emFrame true speaking t d r B).2 = stepBlink d r B := by
  refine ⟨fun h => ?_, fun h => ?_, rfl, rfl⟩
  · simp [poseFrame, h]
  · simp [poseFrame, h]

end Avatar
